import Mathlib

/-!
# Verification of canvas_calendar_parser.py

A shallow embedding of `src/canvas_calendar_parser.py` in Lean 4, together
with theorems settling the frozen claims about its specification.

Modelling conventions:
* Python strings are `List Char` (`Str`).  The regex character class `\d`
  and the whitespace set of the Python function `str.strip` are modelled as
  their ASCII subsets, which is exact for every character class that the
  source regexes otherwise use (`[A-Z]`, `[a-z]`, `[A-Za-z]`, `[- ]`).
* The regular expressions of the source are compiled by hand into
  deterministic matchers.  Each matcher follows the leftmost, greedy,
  backtracking semantics of the Python `re` module; where greedy matching
  with backtracking collapses to a deterministic rule (because adjacent
  character classes are disjoint) the matcher implements that rule, and the
  accompanying comment explains the collapse.
* Fallible Python code (exceptions) is modelled with `Option` / `Except`.
* The file system, the external `ics.Calendar` parser and `strftime` are
  modelled as an abstract environment `Env`; everything downstream of them
  is translated from the source.
-/

set_option maxRecDepth 20000

abbrev Str := List Char

/-! ## Character classes used by the source regexes -/

/-- The class `[A-Z]`. -/
def isUpperAZ (c : Char) : Bool := 'A' ≤ c && c ≤ 'Z'

/-- The class `[a-z]`. -/
def isLowerAZ (c : Char) : Bool := 'a' ≤ c && c ≤ 'z'

/-- The class `\d`, modelled as ASCII `[0-9]`. -/
def isDigit09 (c : Char) : Bool := '0' ≤ c && c ≤ '9'

/-- The class `[A-Za-z]`. -/
def isAlphaAZ (c : Char) : Bool := isUpperAZ c || isLowerAZ c

/-- The class `[A-Z\d]`. -/
def isUpperOrDigit (c : Char) : Bool := isUpperAZ c || isDigit09 c

/-- The class `[A-Za-z\d]`. -/
def isAlphaOrDigit (c : Char) : Bool := isAlphaAZ c || isDigit09 c

/-- The class `[- ]`. -/
def isDashSp (c : Char) : Bool := c == '-' || c == ' '

/-- The class `[- :]` (the lookahead in the course-code regex). -/
def isDashSpColon (c : Char) : Bool := c == '-' || c == ' ' || c == ':'

/-- The whitespace set stripped by the Python function `str.strip`
(ASCII subset). -/
def isPyWhite (c : Char) : Bool :=
  c == ' ' || c == '\t' || c == '\n' || c == '\r' || c == '\x0b' || c == '\x0c'

/-! ## Generic Python string operations -/

/-- The Python function `str.strip()`: drop whitespace from both ends. -/
def pyStrip (s : Str) : Str :=
  ((s.dropWhile isPyWhite).reverse.dropWhile isPyWhite).reverse

/-- One fuelled step of the Python function `str.replace(old, "")` (also the
semantics of `re.sub` with a literal pattern): remove every non-overlapping
occurrence of `old`, scanning left to right.  The fuel only serves to make
the recursion structural; `removeAll` supplies enough fuel for it never to
run out. -/
def removeAllGo (old : Str) : Nat → Str → Str
  | _, [] => []
  | 0, s => s
  | fuel + 1, c :: cs =>
    if old ≠ [] ∧ old.isPrefixOf (c :: cs) then
      removeAllGo old fuel ((c :: cs).drop old.length)
    else
      c :: removeAllGo old fuel cs

/-- The Python expression `s.replace(old, "")`. -/
def removeAll (old s : Str) : Str := removeAllGo old s.length s

/-- The Python expression `pat in s` (substring containment). -/
def containsSub (pat : Str) : Str → Bool
  | [] => pat.isEmpty
  | c :: cs => pat.isPrefixOf (c :: cs) || containsSub pat cs

/-! ## `re.findall(r'(?<=\[)[^\[\]]+(?=\])', event_name)` (line 65)

A match of this pattern is a maximal non-empty run of bracket-free
characters that is immediately preceded by `[` and immediately followed by
`]`; `findall` collects these runs left to right, non-overlapping.  The
scanner below carries the run accumulated since the most recent `[`
(reversed), or `none` when no `[` is pending. -/

def findBracketsGo : Option Str → Str → List Str
  | _, [] => []
  | cur, c :: cs =>
    if c = '[' then findBracketsGo (some []) cs
    else if c = ']' then
      match cur with
      | some (a :: r) => (a :: r).reverse :: findBracketsGo none cs
      | _ => findBracketsGo none cs
    else findBracketsGo (cur.map (c :: ·)) cs

/-- All bracketed blocks of a title, in order of occurrence. -/
def findBrackets (s : Str) : List Str := findBracketsGo none s

/-! ## `re.search(r'([A-Z]{3,4}[- ]\d{4}(?:[- ][A-Z\d]{0,3}(?=[- :])){0,1})', class_name)` (lines 73-76)

The pattern has exactly one capture group: the whole match.  Greedy
matching with backtracking collapses to the following deterministic rule at
each start position:
* `[A-Z]{3,4}` can only consume the entire maximal uppercase run starting
  there (a shorter take leaves an uppercase letter where `[- ]` must match),
  so the position matches only when that run has length 3 or 4;
* `\d{4}` takes exactly four digits;
* the optional suffix group `[- ][A-Z\d]{0,3}(?=[- :])` can only take the
  entire maximal `[A-Z\d]` run after the separator (a shorter take puts an
  `[A-Z\d]` character under the lookahead `[- :]`), so it participates only
  when that run has length at most 3 and the character after it exists and
  lies in `[- :]`; otherwise the group matches zero times. -/

def slugMatchAt (cs : Str) : Option Str :=
  let L := cs.takeWhile isUpperAZ
  if L.length < 3 || 4 < L.length then none
  else
    match cs.drop L.length with
    | [] => none
    | c :: r2 =>
      if isDashSp c then
        let D := r2.take 4
        if D.length = 4 && D.all isDigit09 then
          match r2.drop 4 with
          | [] => some (L ++ c :: D)
          | c2 :: r4 =>
            if isDashSp c2 then
              let A := r4.takeWhile isUpperOrDigit
              if A.length ≤ 3 then
                match r4.drop A.length with
                | c3 :: _ =>
                  if isDashSpColon c3 then some (L ++ c :: D ++ c2 :: A)
                  else some (L ++ c :: D)
                | [] => some (L ++ c :: D)
              else some (L ++ c :: D)
            else some (L ++ c :: D)
        else none
      else none

/-- `re.search`: the match at the leftmost position where one exists.
The returned string is capture group 1 (the whole match). -/
def slugSearch : Str → Option Str
  | [] => none
  | c :: cs =>
    match slugMatchAt (c :: cs) with
    | some m => some m
    | none => slugSearch cs

/-! ## `_format_with_slug` (lines 84-105) -/

/-- The Python expression `s.replace(" ", "-")`. -/
def hyphenate (s : Str) : Str := s.map (fun c => if c = ' ' then '-' else c)

/-- The Python expression `s.rstrip('-')`. -/
def rstripDash (s : Str) : Str := (s.reverse.dropWhile (· == '-')).reverse

/-- `CanvasCalendarParser._format_with_slug`.  The argument is the tuple
`match.groups()` (entries may be `None`).  Returns `none` exactly where the
Python code would raise `IndexError` (`slugs[0]` on an empty list). -/
def format_with_slug (slugs : List (Option Str)) (assignment : Str) : Option Str :=
  -- slugs = [s.replace(" ", "-") for s in slugs if s]
  let ss := slugs.filterMap fun o =>
    match o with
    | some s => if s = [] then none else some (hyphenate s)
    | none => none
  match ss with
  | [s0] => some (s0 ++ ':' :: ' ' :: assignment)
  | [] => none
  | s0 :: _ =>
    -- Handle multi-section courses
    let base_code := s0.take 8
    if ss.all fun s => base_code.isPrefixOf s then
      some (rstripDash base_code ++ ':' :: ' ' :: assignment)
    else
      -- multiple different courses found, just return the first
      some (s0 ++ ':' :: ' ' :: assignment)

/-! ## `_clean_class_name` (lines 107-126)

Each of the first two cleanup regexes is compiled to a matcher returning
the length of the (greedy) match at the given position, or `none`.  In both
patterns every adjacent pair of subexpressions has disjoint character
classes, so greedy matching is again deterministic: each starred or plussed
class consumes its maximal run. -/

/-- Matcher for `r"[- ]*[A-Za-z]*\d[A-Za-z\d]{5,}[- ]*"` (random IDs). -/
def matchRandomId (cs : Str) : Option Nat :=
  let p1 := cs.takeWhile isDashSp
  let r1 := cs.drop p1.length
  let p2 := r1.takeWhile isAlphaAZ
  match r1.drop p2.length with
  | d :: r3 =>
    if isDigit09 d then
      let p3 := r3.takeWhile isAlphaOrDigit
      if 5 ≤ p3.length then
        let p4 := (r3.drop p3.length).takeWhile isDashSp
        some (p1.length + p2.length + 1 + p3.length + p4.length)
      else none
    else none
  | [] => none

/-- Matcher for `r"[- ]*[A-Z][a-z]+[- ]\d{4}[- ]*"` (semester identifiers). -/
def matchSemester (cs : Str) : Option Nat :=
  let p1 := cs.takeWhile isDashSp
  match cs.drop p1.length with
  | u :: r2 =>
    if isUpperAZ u then
      let p2 := r2.takeWhile isLowerAZ
      if 1 ≤ p2.length then
        match r2.drop p2.length with
        | d :: r4 =>
          if isDashSp d then
            let dg := r4.take 4
            if dg.length = 4 && dg.all isDigit09 then
              let p3 := (r4.drop 4).takeWhile isDashSp
              some (p1.length + 1 + p2.length + 1 + 4 + p3.length)
            else none
          else none
        | [] => none
      else none
    else none
  | [] => none

/-- Fuelled `re.sub(pattern, "", s)`: scan left to right, remove each
leftmost match, continue after it.  Neither cleanup pattern can match the
empty string, so every accepted match has positive length. -/
def subAllGo (m : Str → Option Nat) : Nat → Str → Str
  | _, [] => []
  | 0, s => s
  | fuel + 1, c :: cs =>
    match m (c :: cs) with
    | some (n + 1) => subAllGo m fuel ((c :: cs).drop (n + 1))
    | _ => c :: subAllGo m fuel cs

/-- `re.sub(pattern, "", s)` for a matcher `m`. -/
def subAll (m : Str → Option Nat) (s : Str) : Str := subAllGo m s.length s

/-- `CanvasCalendarParser._clean_class_name`. -/
def clean_class_name (class_name assignment : Str) : Str :=
  let c1 := subAll matchRandomId class_name
  let c2 := subAll matchSemester c1
  let c3 := removeAll ("_Combined".data) c2
  c3 ++ ':' :: ' ' :: assignment

/-! ## `_format_event` (lines 55-82) -/

/-- `CanvasCalendarParser._format_event`.  Returns `none` exactly where the
Python code would let an exception escape (which the theorems below show
never happens). -/
def format_event (event_name : Str) : Option Str :=
  match (findBrackets event_name).getLast? with
  | none => some event_name
  | some class_name =>
    let assignment :=
      pyStrip (removeAll ('[' :: (class_name ++ [']'])) event_name)
    match slugSearch class_name with
    | some m => format_with_slug [some m] assignment
    | none => some (clean_class_name class_name assignment)

/-! ## `parse_calendar` (lines 20-53)

The calendar events delivered by the external `ics` library are modelled
abstractly: an event has a begin timestamp, of which the code only ever
uses the calendar-date part (`event.begin.date()`, an abstract `Int` here)
and which also carries a time-of-day component that the code discards, and
a title string (`event.name`). -/

structure CalEvent where
  /-- `event.begin.date()`: the calendar date of the begin timestamp. -/
  beginDate : Int
  /-- The time-of-day component of the begin timestamp (never consulted). -/
  beginTime : Nat
  /-- `event.name`. -/
  name : Str
  deriving DecidableEq

/-- The skip test of lines 45-48:
`any(item in event_details for item in ["PAL", "Training"])`. -/
def toSkip (event_details : Str) : Bool :=
  ["PAL".data, "Training".data].any fun item => containsSub item event_details

/-- Appending one formatted event to the `defaultdict(list)`
`events_by_day`, modelled as an insertion-ordered association list:
`events_by_day[event_date].append(event_details)`. -/
def addEvent : List (Int × List Str) → Int → Str → List (Int × List Str)
  | [], d, v => [(d, [v])]
  | (d0, vs) :: rest, d, v =>
    if d0 = d then (d0, vs ++ [v]) :: rest
    else (d0, vs) :: addEvent rest d v

/-- Dictionary lookup in the association list. -/
def findDay : List (Int × List Str) → Int → Option (List Str)
  | [], _ => none
  | (d0, vs) :: rest, d => if d = d0 then some vs else findDay rest d

/-- The event loop of `parse_calendar` (lines 41-51), threading the
accumulated dictionary.  Returns `none` exactly where an exception from
`_format_event` would escape the loop (shown impossible below). -/
def processEvents : List CalEvent → List (Int × List Str) → Option (List (Int × List Str))
  | [], acc => some acc
  | e :: es, acc =>
    if toSkip e.name then processEvents es acc
    else
      match format_event e.name with
      | some s => processEvents es (addEvent acc e.beginDate s)
      | none => none

/-- The two exception classes raised by `parse_calendar`, plus a catch-all
for any other exception class (shown unreachable below). -/
inductive PyError where
  | notFound (msg : Str)
  | valueError (msg : Str)
  | other (msg : Str)
  deriving DecidableEq

/-- The effectful surroundings of the program: the file system, the
external `ics.Calendar` parser, and `strftime` for date headers.
`readFile` covers `open` plus `f.read()` including UTF-8 decoding; its
error case is any exception raised there (I/O error, decode error).
`icsParse` is the `Calendar(...)` constructor; its error case is any
exception it raises.  `Path(p)` is modelled as the identity on the path
string. -/
structure Env where
  pathExists : Str → Bool
  readFile : Str → Except Str Str
  icsParse : Str → Except Str (List CalEvent)
  fmtDate : Int → Str

/-- `CanvasCalendarParser.parse_calendar` (lines 20-53). -/
def parse_calendar (env : Env) (path : Str) : Except PyError (List (Int × List Str)) :=
  if env.pathExists path = false then
    Except.error (.notFound ("Could not find ICS file: ".data ++ path))
  else
    match env.readFile path with
    | .error e => Except.error (.valueError ("Failed to parse ICS file: ".data ++ e))
    | .ok content =>
      match env.icsParse content with
      | .error e => Except.error (.valueError ("Failed to parse ICS file: ".data ++ e))
      | .ok events =>
        match processEvents events [] with
        | some m => Except.ok m
        | none => Except.error (.other ("IndexError".data))

/-! ## `main` (lines 128-149) -/

/-- The ordering by which Python sorts `events.items()`: tuples compare by
their first component first, and the date keys of the dictionary are
pairwise distinct (proved below), so only the dates are compared. -/
def pairLe (p q : Int × List Str) : Prop := p.1 ≤ q.1

instance : DecidableRel pairLe := fun p q => Int.decLe p.1 q.1

instance : IsTotal (Int × List Str) pairLe := ⟨fun p q => le_total p.1 q.1⟩

instance : IsTrans (Int × List Str) pairLe := ⟨fun _ _ _ h h' => le_trans h h'⟩

/-- `sorted(events.items())` (line 140): Python sort is stable, and any
stable sort produces the same list, so insertion sort models it exactly. -/
def sortPairs (m : List (Int × List Str)) : List (Int × List Str) :=
  List.insertionSort pairLe m

/-- `sorted(day_events)` (line 142): lexicographic order on strings,
i.e. the lexicographic order on `List Char`. -/
def sortLabels (ls : List Str) : List Str :=
  List.insertionSort (· ≤ ·) ls

/-- The per-day blocks printed by lines 140-143, in print order: each date
key paired with its labels in print order. -/
def renderBlocks (m : List (Int × List Str)) : List (Int × List Str) :=
  (sortPairs m).map fun p => (p.1, sortLabels p.2)

/-- The lines printed by lines 140-143: `print(f"\n-- {header} --")`
emits a blank line and a header line, then one line per label. -/
def renderLines (env : Env) (m : List (Int × List Str)) : List Str :=
  ((renderBlocks m).map fun p =>
    [] :: ("-- ".data ++ env.fmtDate p.1 ++ " --".data) :: p.2).flatten

/-- The default input path (line 133). -/
def defaultPath : Str := "canvas_export.ics".data

/-- The message against which line 147 compares the caught exception. -/
def defaultNotFoundMsg : Str := "Could not find ICS file: canvas_export.ics".data

/-- The hint printed by line 148. -/
def hintLine : Str :=
  "Specify a file or rename it to canvas_export.ics and place in this directory.".data

/-- Path selection of lines 130-133 (`args` is `sys.argv[1:]`). -/
def effectivePath (args : List Str) : Str :=
  match args with
  | [] => defaultPath
  | p :: _ => p

/-- `main` (lines 128-149).  The result is `some (printed lines, exit
status)`; `none` models an exception escaping `main` (the `except` clause
catches only `FileNotFoundError` and `ValueError`). -/
def pymain (args : List Str) (env : Env) : Option (List Str × Nat) :=
  match parse_calendar env (effectivePath args) with
  | .ok events => some (renderLines env events, 0)
  | .error (.notFound msg) =>
    some (("Error: ".data ++ msg) ::
      (if msg = defaultNotFoundMsg then [hintLine] else []), 1)
  | .error (.valueError msg) =>
    some (("Error: ".data ++ msg) ::
      (if msg = defaultNotFoundMsg then [hintLine] else []), 1)
  | .error (.other _) => none

/-! ## Helper lemmas: the slug match is never empty -/

theorem slugMatchAt_ne_nil {cs m : Str} (h : slugMatchAt cs = some m) : m ≠ [] := by
  simp only [slugMatchAt] at h
  repeat' split at h
  all_goals
    first
      | exact Option.noConfusion h
      | (injection h with h'; subst h'; simp)

theorem slugSearch_ne_nil {m : Str} : ∀ {s : Str}, slugSearch s = some m → m ≠ [] := by
  intro s
  induction s with
  | nil => intro h; exact Option.noConfusion h
  | cons c cs ih =>
    intro h
    cases hm : slugMatchAt (c :: cs) with
    | some m' =>
      rw [slugSearch, hm] at h
      injection h with h'
      subst h'
      exact slugMatchAt_ne_nil hm
    | none =>
      rw [slugSearch, hm] at h
      exact ih h

/-- With a single non-`None`, non-empty slug piece, `_format_with_slug`
takes the `len(slugs) == 1` branch. -/
theorem format_with_slug_single {m asg : Str} (hm : m ≠ []) :
    format_with_slug [some m] asg = some (hyphenate m ++ ':' :: ' ' :: asg) := by
  simp only [format_with_slug, List.filterMap_cons, List.filterMap_nil, if_neg hm]

/-- `_format_event` never raises, and its result is either the raw title or
a `"label: assignment"` string. -/
theorem format_event_total (s : Str) :
    ∃ r, format_event s = some r ∧
      (r = s ∨ ∃ lab asg, r = lab ++ ':' :: ' ' :: asg) := by
  cases hb : (findBrackets s).getLast? with
  | none => exact ⟨s, by simp [format_event, hb], Or.inl rfl⟩
  | some cls =>
    cases hm : slugSearch cls with
    | none =>
      refine ⟨clean_class_name cls (pyStrip (removeAll ('[' :: (cls ++ [']'])) s)),
        ?_, Or.inr ⟨_, _, rfl⟩⟩
      simp [format_event, hb, hm]
    | some m =>
      refine ⟨hyphenate m ++ ':' :: ' ' ::
        pyStrip (removeAll ('[' :: (cls ++ [']'])) s), ?_, Or.inr ⟨_, _, rfl⟩⟩
      simp only [format_event, hb, hm]
      exact format_with_slug_single (slugSearch_ne_nil hm)

/-- **C8.** For every input title string, `format_event` (including its
helpers `_format_with_slug` and `_clean_class_name`) is total and returns a
string without raising any exception; malformed titles degrade to
best-effort output (the raw title, or a `"label: assignment"` string). -/
theorem claim_C8_thm (s : Str) :
    ∃ r, format_event s = some r ∧
      (r = s ∨ ∃ lab asg, r = lab ++ ':' :: ' ' :: asg) :=
  format_event_total s

/-- **C9.** Whenever the course-code regex matches the class-name block,
`format_event` returns exactly the first (and only) regex capture with
spaces replaced by hyphens, a `": "` separator, and the assignment text:
the regex has a single capture group, so `_format_with_slug` receives one
non-`None` slug piece and only its `len(slugs) == 1` branch runs; the
multi-section base-code branch and the first-piece-wins branch are never
executed. -/
theorem claim_C9_thm (name cls m : Str)
    (hb : (findBrackets name).getLast? = some cls)
    (hm : slugSearch cls = some m) :
    format_event name =
      some (hyphenate m ++ ':' :: ' ' ::
        pyStrip (removeAll ('[' :: (cls ++ [']'])) name)) := by
  simp only [format_event, hb, hm]
  exact format_with_slug_single (slugSearch_ne_nil hm)

/-- Witness for C9 at the concrete title `"[MATH-2164-001] Homework 3"`. -/
theorem claim_C9_witness :
    format_event ("[MATH-2164-001] Homework 3".data) =
      some (hyphenate ("MATH-2164".data) ++ ':' :: ' ' ::
        pyStrip (removeAll ('[' :: ("MATH-2164-001".data ++ [']']))
          ("[MATH-2164-001] Homework 3".data))) :=
  claim_C9_thm ("[MATH-2164-001] Homework 3".data) ("MATH-2164-001".data)
    ("MATH-2164".data) (by decide) (by decide)

/-- **C1 (counterexample).** On `"[MATH-2164-001] Homework 3"` the result
is not `"MATH-2164-001: Homework 3"`: the claim fails on the code. -/
theorem claim_C1_cex :
    format_event ("[MATH-2164-001] Homework 3".data) ≠
      some ("MATH-2164-001: Homework 3".data) := by
  decide

/-- **C1 (amended).** `format_event("[MATH-2164-001] Homework 3")` returns
`"MATH-2164: Homework 3"`: the section suffix `-001` is dropped, because
the suffix part of the course-code regex is guarded by the lookahead
`(?=[- :])` and at the end of the class-name block no such character
follows. -/
theorem claim_C1_thm :
    format_event ("[MATH-2164-001] Homework 3".data) =
      some ("MATH-2164: Homework 3".data) := by
  decide

/-- **C2 (counterexample).** On `"[MATH-2164-001, MATH-2164-002] Quiz"`
(two slug pieces sharing the 8-character base `"MATH-216"`) the result is
not the shared base code `"MATH-216"` followed by `": Quiz"`: the claim
fails on the code. -/
theorem claim_C2_cex :
    format_event ("[MATH-2164-001, MATH-2164-002] Quiz".data) ≠
      some ("MATH-216: Quiz".data) := by
  decide

/-- **C2 (amended).** On such titles `re.search` produces a single capture
holding only the first course-code match (`"MATH-2164"`; the `-001` suffix
is followed by a comma, which the lookahead `[- :]` rejects), so the
multi-section merging branch is never reached and the result is
`"MATH-2164: Quiz"`. -/
theorem claim_C2_thm :
    format_event ("[MATH-2164-001, MATH-2164-002] Quiz".data) =
      some ("MATH-2164: Quiz".data) := by
  decide

/-! ## C3: titles without a bracketed substring pass through unchanged -/

/-- A string free of both bracket characters. -/
def bracketFree (l : Str) : Bool := l.all fun c => (c != '[') && (c != ']')

/-- If the bracket scanner finds anything, the string decomposes around a
non-empty bracket-free block enclosed in `[` and `]`, or the pending
accumulator completes such a block. -/
theorem findBracketsGo_ne_nil :
    ∀ (s : Str) (cur : Option Str), findBracketsGo cur s ≠ [] →
      (∃ u mid v, s = u ++ '[' :: (mid ++ ']' :: v) ∧ mid ≠ [] ∧ bracketFree mid = true) ∨
      (∃ r mid v, cur = some r ∧ s = mid ++ ']' :: v ∧ bracketFree mid = true ∧
        (r ≠ [] ∨ mid ≠ [])) := by
  intro s
  induction s with
  | nil => intro cur h; exact absurd rfl h
  | cons c cs ih =>
    intro cur h
    by_cases hc : c = '['
    · subst hc
      rw [show findBracketsGo cur ('[' :: cs) = findBracketsGo (some []) cs from by
        simp [findBracketsGo]] at h
      rcases ih (some []) h with ⟨u, mid, v, hcs, hne, hbf⟩ | ⟨r, mid, v, hcur, hcs, hbf, hor⟩
      · exact Or.inl ⟨'[' :: u, mid, v, by simp [hcs], hne, hbf⟩
      · injection hcur with hr
        have hmid : mid ≠ [] := by
          rcases hor with hr' | hm
          · exact absurd hr.symm hr'
          · exact hm
        exact Or.inl ⟨[], mid, v, by simp [hcs], hmid, hbf⟩
    · by_cases hc2 : c = ']'
      · subst hc2
        rcases cur with _ | r
        · rw [show findBracketsGo none (']' :: cs) = findBracketsGo none cs from by
            simp [findBracketsGo]] at h
          rcases ih none h with ⟨u, mid, v, hcs, hne, hbf⟩ | ⟨r, _, _, hcur, _⟩
          · exact Or.inl ⟨']' :: u, mid, v, by simp [hcs], hne, hbf⟩
          · exact Option.noConfusion hcur
        · rcases r with _ | ⟨a, r⟩
          · rw [show findBracketsGo (some []) (']' :: cs) = findBracketsGo none cs from by
              simp [findBracketsGo]] at h
            rcases ih none h with ⟨u, mid, v, hcs, hne, hbf⟩ | ⟨r, _, _, hcur, _⟩
            · exact Or.inl ⟨']' :: u, mid, v, by simp [hcs], hne, hbf⟩
            · exact Option.noConfusion hcur
          · exact Or.inr ⟨a :: r, [], cs, rfl, by simp, by simp [bracketFree],
              Or.inl (by simp)⟩
      · rw [show findBracketsGo cur (c :: cs) = findBracketsGo (cur.map (c :: ·)) cs from by
          simp [findBracketsGo, hc, hc2]] at h
        rcases ih (cur.map (c :: ·)) h with ⟨u, mid, v, hcs, hne, hbf⟩ |
          ⟨r', mid, v, hcur, hcs, hbf, hor⟩
        · exact Or.inl ⟨c :: u, mid, v, by simp [hcs], hne, hbf⟩
        · rcases cur with _ | r
          · exact Option.noConfusion hcur
          · injection hcur with hr
            refine Or.inr ⟨r, c :: mid, v, rfl, by simp [hcs], ?_, Or.inr (by simp)⟩
            simp [bracketFree, hc, hc2] at hbf ⊢
            exact hbf

/-- **C3.** Every title string that contains no bracketed substring — no
decomposition `u ++ "[" ++ mid ++ "]" ++ v` with `mid` non-empty and
bracket-free — is returned unchanged by `format_event`. -/
theorem claim_C3_thm (s : Str)
    (h : ¬ ∃ u mid v, s = u ++ '[' :: (mid ++ ']' :: v) ∧ mid ≠ [] ∧
      bracketFree mid = true) :
    format_event s = some s := by
  have hb : findBrackets s = [] := by
    by_contra hne
    rcases findBracketsGo_ne_nil s none hne with hl | ⟨r, _, _, hcur, _⟩
    · exact h hl
    · exact Option.noConfusion hcur
  simp [format_event, hb]

/-- Witness for C3 at the concrete title `"Homework 3"`. -/
theorem claim_C3_witness : format_event ("Homework 3".data) = some ("Homework 3".data) := by
  apply claim_C3_thm
  rintro ⟨u, mid, v, hs, -, -⟩
  have hmem : '[' ∈ "Homework 3".data := by
    rw [hs]; simp
  exact absurd hmem (by decide)

/-! ## C4: the filter is exactly the raw-title substring test -/

/-- `containsSub` decides substring containment (the Python operator
`in`). -/
theorem containsSub_iff_infix (pat : Str) : ∀ s, containsSub pat s = true ↔ pat <:+: s := by
  intro s
  induction s with
  | nil => simp [containsSub, List.isEmpty_iff]
  | cons c cs ih =>
    rw [containsSub, List.infix_cons_iff]
    simp [ih]

/-- The skip test of lines 45-48 passes exactly the titles containing
neither `"PAL"` nor `"Training"` as a substring. -/
theorem toSkip_eq_false_iff (n : Str) :
    toSkip n = false ↔ ¬ ("PAL".data <:+: n) ∧ ¬ ("Training".data <:+: n) := by
  rw [← Bool.not_eq_true]
  simp [toSkip, containsSub_iff_infix]

/-- A label being recorded under a date in the events dictionary. -/
def memDay (m : List (Int × List Str)) (d : Int) (l : Str) : Prop :=
  ∃ ls, findDay m d = some ls ∧ l ∈ ls

theorem findDay_addEvent (acc : List (Int × List Str)) (d : Int) (v : Str) (d' : Int) :
    findDay (addEvent acc d v) d' =
      if d' = d then some ((findDay acc d).getD [] ++ [v]) else findDay acc d' := by
  induction acc with
  | nil => by_cases h : d' = d <;> simp [addEvent, findDay, h]
  | cons p rest ih =>
    obtain ⟨d0, vs⟩ := p
    by_cases h0 : d0 = d
    · subst h0
      by_cases h : d' = d0 <;> simp [addEvent, findDay, h]
    · by_cases h : d' = d0
      · subst h
        have : ¬ d' = d := h0
        simp [addEvent, findDay, h0, this]
      · have h0' : ¬ d = d0 := fun hh => h0 hh.symm
        simp [addEvent, findDay, h0, h, h0', ih]

theorem memDay_addEvent {acc : List (Int × List Str)} {d : Int} {v : Str}
    {d' : Int} {l : Str} :
    memDay (addEvent acc d v) d' l ↔ memDay acc d' l ∨ (d' = d ∧ l = v) := by
  unfold memDay
  rw [findDay_addEvent]
  by_cases h : d' = d
  · subst h
    simp only [if_pos rfl]
    cases hf : findDay acc d' with
    | none => simp [hf]
    | some ls => simp [hf]
  · simp [h]

/-- Characterisation of the dictionary built by the event loop: a label
sits under a date exactly when it was already in the accumulator or some
unskipped event of the list produces it there. -/
theorem processEvents_mem :
    ∀ (evs : List CalEvent) (acc m : List (Int × List Str)),
      processEvents evs acc = some m → ∀ (d : Int) (l : Str),
      memDay m d l ↔ memDay acc d l ∨
        ∃ e, e ∈ evs ∧ toSkip e.name = false ∧ e.beginDate = d ∧
          format_event e.name = some l := by
  intro evs
  induction evs with
  | nil =>
    intro acc m h d l
    injection h with h'
    subst h'
    simp
  | cons e es ih =>
    intro acc m h d l
    by_cases hsk : toSkip e.name
    · rw [processEvents, if_pos hsk] at h
      rw [ih acc m h d l]
      constructor
      · rintro (hm | ⟨e', he', hP⟩)
        · exact Or.inl hm
        · exact Or.inr ⟨e', List.mem_cons_of_mem e he', hP⟩
      · rintro (hm | ⟨e', he', hsk', hP⟩)
        · exact Or.inl hm
        · rcases List.mem_cons.mp he' with rfl | he''
          · exact absurd hsk (by simp [hsk'])
          · exact Or.inr ⟨e', he'', hsk', hP⟩
    · cases hf : format_event e.name with
      | none =>
        rw [processEvents, if_neg hsk, hf] at h
        exact absurd h (by simp)
      | some s =>
        rw [processEvents, if_neg hsk, hf] at h
        rw [ih _ m h d l, memDay_addEvent]
        have hsk' : toSkip e.name = false := by
          simpa using hsk
        constructor
        · rintro ((hm | ⟨rfl, rfl⟩) | ⟨e', he', hP⟩)
          · exact Or.inl hm
          · exact Or.inr ⟨e, List.mem_cons_self e es, hsk', rfl, hf⟩
          · exact Or.inr ⟨e', List.mem_cons_of_mem e he', hP⟩
        · rintro (hm | ⟨e', he', hsk'', hd, hfe⟩)
          · exact Or.inl (Or.inl hm)
          · rcases List.mem_cons.mp he' with rfl | he''
            · rw [hf] at hfe
              injection hfe with hls
              exact Or.inl (Or.inr ⟨hd.symm, hls.symm⟩)
            · exact Or.inr ⟨e', he'', hsk'', hd, hfe⟩

/-- **C4.** A label appears in the output dictionary of `parse_calendar`
under a date exactly when some event of the input produces it: the event's
raw title contains neither `"PAL"` nor `"Training"` as a (case-sensitive)
substring — the check is on the raw title, before formatting — its begin
date is that date, and its formatted title is that label.  In particular an
event whose raw title contains either substring contributes nothing. -/
theorem claim_C4_thm (evs : List CalEvent) (m : List (Int × List Str))
    (h : processEvents evs [] = some m) (d : Int) (l : Str) :
    memDay m d l ↔
      ∃ e, e ∈ evs ∧ ¬ ("PAL".data <:+: e.name) ∧ ¬ ("Training".data <:+: e.name) ∧
        e.beginDate = d ∧ format_event e.name = some l := by
  rw [processEvents_mem evs [] m h d l]
  have hacc : ¬ memDay [] d l := by simp [memDay, findDay]
  simp only [hacc, false_or]
  constructor
  · rintro ⟨e, he, hsk, hP⟩
    exact ⟨e, he, (toSkip_eq_false_iff e.name).mp hsk |>.1,
      (toSkip_eq_false_iff e.name).mp hsk |>.2, hP⟩
  · rintro ⟨e, he, h1, h2, hP⟩
    exact ⟨e, he, (toSkip_eq_false_iff e.name).mpr ⟨h1, h2⟩, hP⟩

/-- Witness for C4: a kept event and a skipped `"PAL"` event on the same
day. -/
theorem claim_C4_witness :
    memDay [((5 : Int), ["MATH-2164: Homework 3".data])] 5 ("MATH-2164: Homework 3".data) ↔
      ∃ e, e ∈ [CalEvent.mk 5 10 ("[MATH-2164-001] Homework 3".data),
                CalEvent.mk 5 20 ("PAL session".data)] ∧
        ¬ ("PAL".data <:+: e.name) ∧ ¬ ("Training".data <:+: e.name) ∧
        e.beginDate = 5 ∧ format_event e.name = some ("MATH-2164: Homework 3".data) :=
  claim_C4_thm
    [CalEvent.mk 5 10 ("[MATH-2164-001] Homework 3".data),
     CalEvent.mk 5 20 ("PAL session".data)]
    [((5 : Int), ["MATH-2164: Homework 3".data])]
    (by decide) 5 ("MATH-2164: Homework 3".data)

/-! ## C5: one key per date; rendering sorts dates and labels -/

theorem addEvent_keys (acc : List (Int × List Str)) (d : Int) (v : Str) :
    (addEvent acc d v).map Prod.fst =
      if d ∈ acc.map Prod.fst then acc.map Prod.fst
      else acc.map Prod.fst ++ [d] := by
  induction acc with
  | nil => simp [addEvent]
  | cons p rest ih =>
    obtain ⟨d0, vs⟩ := p
    by_cases h : d0 = d
    · subst h
      simp [addEvent]
    · have h' : ¬ d = d0 := fun hh => h hh.symm
      by_cases h2 : d ∈ rest.map Prod.fst <;>
        simp [addEvent, h, h', h2, ih]

theorem addEvent_keys_nodup {acc : List (Int × List Str)} {d : Int} {v : Str}
    (h : (acc.map Prod.fst).Nodup) : ((addEvent acc d v).map Prod.fst).Nodup := by
  rw [addEvent_keys]
  by_cases hd : d ∈ acc.map Prod.fst
  · simpa [hd]
  · simp [hd, List.nodup_append, h]

theorem processEvents_keys_nodup :
    ∀ (evs : List CalEvent) (acc m : List (Int × List Str)),
      (acc.map Prod.fst).Nodup → processEvents evs acc = some m →
      (m.map Prod.fst).Nodup := by
  intro evs
  induction evs with
  | nil =>
    intro acc m hn h
    injection h with h'
    subst h'
    exact hn
  | cons e es ih =>
    intro acc m hn h
    by_cases hsk : toSkip e.name
    · rw [processEvents, if_pos hsk] at h
      exact ih acc m hn h
    · cases hf : format_event e.name with
      | none =>
        rw [processEvents, if_neg hsk, hf] at h
        exact absurd h (by simp)
      | some s =>
        rw [processEvents, if_neg hsk, hf] at h
        exact ih _ m (addEvent_keys_nodup hn) h

/-- The event loop never fails: `_format_event` is total. -/
theorem processEvents_total :
    ∀ (evs : List CalEvent) (acc : List (Int × List Str)),
      ∃ m, processEvents evs acc = some m := by
  intro evs
  induction evs with
  | nil => intro acc; exact ⟨acc, rfl⟩
  | cons e es ih =>
    intro acc
    by_cases hsk : toSkip e.name
    · simpa [processEvents, hsk] using ih acc
    · obtain ⟨r, hr, -⟩ := format_event_total e.name
      simpa [processEvents, hsk, hr] using ih (addEvent acc e.beginDate r)

theorem renderBlocks_keys_eq (m : List (Int × List Str)) :
    (renderBlocks m).map Prod.fst = (sortPairs m).map Prod.fst := by
  rw [renderBlocks, List.map_map]
  rfl

theorem renderBlocks_keys_sorted (m : List (Int × List Str))
    (h : (m.map Prod.fst).Nodup) :
    List.Sorted (· < ·) ((renderBlocks m).map Prod.fst) := by
  rw [renderBlocks_keys_eq]
  have hperm : List.Perm (sortPairs m) m := List.perm_insertionSort pairLe m
  have hnd : ((sortPairs m).map Prod.fst).Nodup :=
    ((hperm.map Prod.fst).nodup_iff).mpr h
  have hle : List.Sorted (· ≤ ·) ((sortPairs m).map Prod.fst) := by
    rw [List.Sorted, List.pairwise_map]
    exact List.sorted_insertionSort pairLe m
  exact hle.lt_of_le hnd

theorem renderBlocks_labels_sorted (m : List (Int × List Str)) :
    ∀ p ∈ renderBlocks m, List.Sorted (· ≤ ·) p.2 := by
  intro p hp
  simp only [renderBlocks, List.mem_map] at hp
  obtain ⟨q, -, rfl⟩ := hp
  exact List.sorted_insertionSort _ q.2

/-- **C5.** Two kept events with the same begin date (whatever their times
of day) land in one and the same date key of the dictionary — whose keys
are pairwise distinct — and at render time the date blocks come in strictly
ascending date order while the labels inside each block come in ascending
lexicographic order. -/
theorem claim_C5_thm (evs : List CalEvent) (m : List (Int × List Str))
    (h : processEvents evs [] = some m)
    (e1 e2 : CalEvent) (h1 : e1 ∈ evs) (h2 : e2 ∈ evs)
    (k1 : toSkip e1.name = false) (k2 : toSkip e2.name = false)
    (hd : e1.beginDate = e2.beginDate)
    (l1 l2 : Str) (f1 : format_event e1.name = some l1)
    (f2 : format_event e2.name = some l2) :
    (∃ ls, findDay m e1.beginDate = some ls ∧ l1 ∈ ls ∧ l2 ∈ ls) ∧
      (m.map Prod.fst).Nodup ∧
      List.Sorted (· < ·) ((renderBlocks m).map Prod.fst) ∧
      ∀ p ∈ renderBlocks m, List.Sorted (· ≤ ·) p.2 := by
  have hnd : (m.map Prod.fst).Nodup :=
    processEvents_keys_nodup evs [] m (by simp) h
  refine ⟨?_, hnd, renderBlocks_keys_sorted m hnd, renderBlocks_labels_sorted m⟩
  have hm1 : memDay m e1.beginDate l1 :=
    (processEvents_mem evs [] m h e1.beginDate l1).mpr
      (Or.inr ⟨e1, h1, k1, rfl, f1⟩)
  have hm2 : memDay m e1.beginDate l2 :=
    (processEvents_mem evs [] m h e1.beginDate l2).mpr
      (Or.inr ⟨e2, h2, k2, hd.symm, f2⟩)
  obtain ⟨ls, hls, hl1⟩ := hm1
  obtain ⟨ls', hls', hl2⟩ := hm2
  rw [hls] at hls'
  injection hls' with he
  subst he
  exact ⟨ls, hls, hl1, hl2⟩

/-- Witness for C5: two events on day 5 at different times of day. -/
theorem claim_C5_witness :
    (∃ ls, findDay [((5 : Int), ["MATH-2164: A".data, "CHEM-1251: B".data])] 5 = some ls ∧
        ("MATH-2164: A".data) ∈ ls ∧ ("CHEM-1251: B".data) ∈ ls) ∧
      (([((5 : Int), ["MATH-2164: A".data, "CHEM-1251: B".data])].map Prod.fst).Nodup) ∧
      List.Sorted (· < ·)
        ((renderBlocks [((5 : Int), ["MATH-2164: A".data, "CHEM-1251: B".data])]).map Prod.fst) ∧
      ∀ p ∈ renderBlocks [((5 : Int), ["MATH-2164: A".data, "CHEM-1251: B".data])],
        List.Sorted (· ≤ ·) p.2 :=
  claim_C5_thm
    [CalEvent.mk 5 1 ("[MATH 2164] A".data), CalEvent.mk 5 2 ("[CHEM-1251] B".data)]
    [((5 : Int), ["MATH-2164: A".data, "CHEM-1251: B".data])]
    (by decide)
    (CalEvent.mk 5 1 ("[MATH 2164] A".data)) (CalEvent.mk 5 2 ("[CHEM-1251] B".data))
    (by decide) (by decide) (by decide) (by decide) rfl
    ("MATH-2164: A".data) ("CHEM-1251: B".data) (by decide) (by decide)

/-! ## C6, C7, C10: error behaviour of `parse_calendar` and `main` -/

/-- A `FileNotFoundError` from `parse_calendar` carries exactly the
message of line 31, and only arises when the path does not exist. -/
theorem parse_calendar_notFound {env : Env} {path msg : Str}
    (h : parse_calendar env path = Except.error (.notFound msg)) :
    msg = "Could not find ICS file: ".data ++ path ∧ env.pathExists path = false := by
  by_cases hp : env.pathExists path = false
  · have hx : parse_calendar env path =
        Except.error (.notFound ("Could not find ICS file: ".data ++ path)) := by
      simp [parse_calendar, hp]
    rw [hx] at h
    injection h with h'
    injection h' with h''
    exact ⟨h''.symm, hp⟩
  · cases hr : env.readFile path with
    | error e =>
      have hx : parse_calendar env path =
          Except.error (.valueError ("Failed to parse ICS file: ".data ++ e)) := by
        simp [parse_calendar, hp, hr]
      rw [hx] at h
      exact absurd h (by simp)
    | ok content =>
      cases hc : env.icsParse content with
      | error e =>
        have hx : parse_calendar env path =
            Except.error (.valueError ("Failed to parse ICS file: ".data ++ e)) := by
          simp [parse_calendar, hp, hr, hc]
        rw [hx] at h
        exact absurd h (by simp)
      | ok events =>
        obtain ⟨m, hm⟩ := processEvents_total events []
        have hx : parse_calendar env path = Except.ok m := by
          simp [parse_calendar, hp, hr, hc, hm]
        rw [hx] at h
        exact absurd h (by simp)

/-- A `ValueError` from `parse_calendar` wraps some underlying error
message with the context prefix of line 37. -/
theorem parse_calendar_valueError {env : Env} {path msg : Str}
    (h : parse_calendar env path = Except.error (.valueError msg)) :
    ∃ e, msg = "Failed to parse ICS file: ".data ++ e := by
  by_cases hp : env.pathExists path = false
  · have hx : parse_calendar env path =
        Except.error (.notFound ("Could not find ICS file: ".data ++ path)) := by
      simp [parse_calendar, hp]
    rw [hx] at h
    exact absurd h (by simp)
  · cases hr : env.readFile path with
    | error e =>
      have hx : parse_calendar env path =
          Except.error (.valueError ("Failed to parse ICS file: ".data ++ e)) := by
        simp [parse_calendar, hp, hr]
      rw [hx] at h
      injection h with h'
      injection h' with h''
      exact ⟨e, h''.symm⟩
    | ok content =>
      cases hc : env.icsParse content with
      | error e =>
        have hx : parse_calendar env path =
            Except.error (.valueError ("Failed to parse ICS file: ".data ++ e)) := by
          simp [parse_calendar, hp, hr, hc]
        rw [hx] at h
        injection h with h'
        injection h' with h''
        exact ⟨e, h''.symm⟩
      | ok events =>
        obtain ⟨m, hm⟩ := processEvents_total events []
        have hx : parse_calendar env path = Except.ok m := by
          simp [parse_calendar, hp, hr, hc, hm]
        rw [hx] at h
        exact absurd h (by simp)

/-- **C6.** `parse_calendar` raises `FileNotFoundError` exactly when the
path does not exist, with a message containing the path; and when the path
exists but reading or parsing its content fails, it raises `ValueError`
wrapping the underlying error as context. -/
theorem claim_C6_thm (env : Env) (path : Str) :
    ((∃ msg, parse_calendar env path = Except.error (.notFound msg) ∧ path <:+: msg) ↔
      env.pathExists path = false) ∧
    (∀ e, env.pathExists path = true → env.readFile path = Except.error e →
      parse_calendar env path =
        Except.error (.valueError ("Failed to parse ICS file: ".data ++ e))) ∧
    (∀ c e, env.pathExists path = true → env.readFile path = Except.ok c →
      env.icsParse c = Except.error e →
      parse_calendar env path =
        Except.error (.valueError ("Failed to parse ICS file: ".data ++ e))) := by
  refine ⟨⟨?_, ?_⟩, ?_, ?_⟩
  · rintro ⟨msg, h, -⟩
    exact (parse_calendar_notFound h).2
  · intro hp
    refine ⟨"Could not find ICS file: ".data ++ path, ?_, ?_⟩
    · simp [parse_calendar, hp]
    · exact ⟨"Could not find ICS file: ".data, [], by simp⟩
  · intro e hp hr
    have hp' : ¬ env.pathExists path = false := by simp [hp]
    simp [parse_calendar, hp', hr]
  · intro c e hp hr hc
    have hp' : ¬ env.pathExists path = false := by simp [hp]
    simp [parse_calendar, hp', hr, hc]

/-- An environment whose file system has no files. -/
def envMissing : Env where
  pathExists := fun _ => false
  readFile := fun _ => Except.error []
  icsParse := fun _ => Except.ok []
  fmtDate := fun _ => []

/-- An environment where the file exists but reading it fails
(e.g. an I/O or decode error). -/
def envBadRead : Env where
  pathExists := fun _ => true
  readFile := fun _ => Except.error ("boom".data)
  icsParse := fun _ => Except.ok []
  fmtDate := fun _ => []

/-- An environment where the file is read but the `ics` parser rejects
its content. -/
def envBadContent : Env where
  pathExists := fun _ => true
  readFile := fun _ => Except.ok ("not an ics file".data)
  icsParse := fun _ => Except.error ("parse fail".data)
  fmtDate := fun _ => []

/-- Witness for C6: a missing file, a failing read, a failing parse. -/
theorem claim_C6_witness :
    (∃ msg, parse_calendar envMissing defaultPath = Except.error (.notFound msg) ∧
      defaultPath <:+: msg) ∧
    parse_calendar envBadRead defaultPath =
      Except.error (.valueError ("Failed to parse ICS file: ".data ++ "boom".data)) ∧
    parse_calendar envBadContent defaultPath =
      Except.error (.valueError ("Failed to parse ICS file: ".data ++ "parse fail".data)) :=
  ⟨(claim_C6_thm envMissing defaultPath).1.mpr rfl,
    (claim_C6_thm envBadRead defaultPath).2.1 ("boom".data) rfl rfl,
    (claim_C6_thm envBadContent defaultPath).2.2 ("not an ics file".data)
      ("parse fail".data) rfl rfl rfl⟩

/-- **C10.** `parse_calendar` can only raise `FileNotFoundError` or
`ValueError`; and whenever the path exists, any failure — of opening,
reading or decoding the file (`readFile`) as well as of the calendar
parser itself (`icsParse`) — is re-raised as a `ValueError` wrapping the
underlying error. -/
theorem claim_C10_thm (env : Env) (path : Str) (pe : PyError)
    (h : parse_calendar env path = Except.error pe) :
    ((∃ m, pe = .notFound m) ∨ (∃ m, pe = .valueError m)) ∧
    (env.pathExists path = true →
      ∃ e, pe = .valueError ("Failed to parse ICS file: ".data ++ e) ∧
        (env.readFile path = Except.error e ∨
          ∃ c, env.readFile path = Except.ok c ∧ env.icsParse c = Except.error e)) := by
  by_cases hp : env.pathExists path = false
  · have hx : parse_calendar env path =
        Except.error (.notFound ("Could not find ICS file: ".data ++ path)) := by
      simp [parse_calendar, hp]
    rw [hx] at h
    injection h with h'
    constructor
    · exact Or.inl ⟨_, h'.symm⟩
    · intro hp'
      rw [hp'] at hp
      exact absurd hp (by simp)
  · cases hr : env.readFile path with
    | error e =>
      have hx : parse_calendar env path =
          Except.error (.valueError ("Failed to parse ICS file: ".data ++ e)) := by
        simp [parse_calendar, hp, hr]
      rw [hx] at h
      injection h with h'
      exact ⟨Or.inr ⟨_, h'.symm⟩, fun _ => ⟨e, h'.symm, Or.inl rfl⟩⟩
    | ok content =>
      cases hc : env.icsParse content with
      | error e =>
        have hx : parse_calendar env path =
            Except.error (.valueError ("Failed to parse ICS file: ".data ++ e)) := by
          simp [parse_calendar, hp, hr, hc]
        rw [hx] at h
        injection h with h'
        exact ⟨Or.inr ⟨_, h'.symm⟩, fun _ => ⟨e, h'.symm, Or.inr ⟨content, rfl, hc⟩⟩⟩
      | ok events =>
        obtain ⟨m, hm⟩ := processEvents_total events []
        have hx : parse_calendar env path = Except.ok m := by
          simp [parse_calendar, hp, hr, hc, hm]
        rw [hx] at h
        exact absurd h (by simp)

/-- Witness for C10: the failing-read environment. -/
theorem claim_C10_witness :
    ((∃ m, PyError.valueError ("Failed to parse ICS file: ".data ++ "boom".data) =
        .notFound m) ∨
      (∃ m, PyError.valueError ("Failed to parse ICS file: ".data ++ "boom".data) =
        .valueError m)) ∧
    (envBadRead.pathExists defaultPath = true →
      ∃ e, PyError.valueError ("Failed to parse ICS file: ".data ++ "boom".data) =
          .valueError ("Failed to parse ICS file: ".data ++ e) ∧
        (envBadRead.readFile defaultPath = Except.error e ∨
          ∃ c, envBadRead.readFile defaultPath = Except.ok c ∧
            envBadRead.icsParse c = Except.error e)) :=
  claim_C10_thm envBadRead defaultPath
    (PyError.valueError ("Failed to parse ICS file: ".data ++ "boom".data)) rfl

/-- **C7.** On `FileNotFoundError` or `ValueError`, `main` prints
`"Error: <message>"` and exits with status 1; the extra hint line is
printed exactly when the error is the missing-file error and the effective
path equals the default filename `"canvas_export.ics"` (for a `ValueError`
the hint never appears, its message beginning `"Failed to parse..."`). -/
theorem claim_C7_thm (args : List Str) (env : Env) (msg : Str) :
    (parse_calendar env (effectivePath args) = Except.error (.notFound msg) →
      pymain args env =
        some (("Error: ".data ++ msg) ::
          (if effectivePath args = defaultPath then [hintLine] else []), 1)) ∧
    (parse_calendar env (effectivePath args) = Except.error (.valueError msg) →
      pymain args env = some ([("Error: ".data ++ msg)], 1)) := by
  constructor
  · intro h
    have hmsg := (parse_calendar_notFound h).1
    rw [pymain, h]
    by_cases hp : effectivePath args = defaultPath
    · have hq : msg = defaultNotFoundMsg := by
        rw [hmsg, hp]
        decide
      simp [hq, hp]
    · have hq : msg ≠ defaultNotFoundMsg := by
        rw [hmsg]
        intro hq'
        apply hp
        apply @List.append_cancel_left Char ("Could not find ICS file: ".data)
          (effectivePath args) defaultPath
        rw [hq']
        decide
      simp [hq, hp]
  · intro h
    obtain ⟨e, he⟩ := parse_calendar_valueError h
    have hq : msg ≠ defaultNotFoundMsg := by
      rw [he]
      intro hq'
      have h0 : ("Failed to parse ICS file: ".data ++ e).head? = some 'F' := rfl
      rw [hq'] at h0
      exact absurd h0 (by decide)
    rw [pymain, h]
    simp [hq]

/-- Witness for C7: a missing default file (hint printed) and a failing
read (no hint). -/
theorem claim_C7_witness :
    pymain [] envMissing =
      some (("Error: ".data ++ ("Could not find ICS file: ".data ++ defaultPath)) ::
        [hintLine], 1) ∧
    pymain [] envBadRead =
      some ([("Error: ".data ++ ("Failed to parse ICS file: ".data ++ "boom".data))], 1) := by
  constructor
  · have h := (claim_C7_thm [] envMissing
      ("Could not find ICS file: ".data ++ defaultPath)).1 rfl
    simpa using h
  · exact (claim_C7_thm [] envBadRead
      ("Failed to parse ICS file: ".data ++ "boom".data)).2 rfl
